import Mathlib

/-!
Verification of the recomend-scripts TMDB reconciliation pipeline.

Shallow embedding of the reconcile / bulk-upsert / fetch logic of
`src/tmdb/sync_tmdb.py`, `src/tmdb/tmdb_update.py` and the
`src/tmdb_v2` flows, with theorems checking the documented behaviour.
-/

namespace Recomend

/-! ## Python-style results: a call either returns a value or raises. -/

/-- Outcome of running a Python function: a normal return or an uncaught
exception carrying its message. -/
inductive PyResult (α : Type) where
  | ok : α → PyResult α
  | exn : String → PyResult α
deriving DecidableEq

/-- True when the run ended in an uncaught exception. -/
def PyResult.isExn {α : Type} : PyResult α → Bool
  | .ok _ => false
  | .exn _ => true

/-! ## Reconcile step.

`sync_tmdb.py` lines 190-195 (and the analogous lines of every other
entity sync, of `tmdb_update.py`, and of the v2 flows) compute

    missing_in_db   = tmdb_set - db_set
    missing_in_tmdb = db_set - tmdb_set

`missing_in_tmdb` is the set of ids deleted from the destination
(toDelete); `missing_in_db` is the set of ids fetched and inserted
(toAdd). -/

/-- Result of the reconcile step: ids to add to the destination and ids to
delete from it, named as in the source. -/
structure ReconcileOut (α : Type) where
  missing_in_db : Finset α
  missing_in_tmdb : Finset α
deriving DecidableEq

/-- The reconcile step of `sync_tmdb_language` (sync_tmdb.py 190-195):
two plain set differences on the destination and source id sets. -/
def reconcileStep {α : Type} [DecidableEq α] (db_set tmdb_set : Finset α) :
    ReconcileOut α :=
  { missing_in_db := tmdb_set \ db_set
    missing_in_tmdb := db_set \ tmdb_set }

/-- C1: the reconcile step computes toDelete = D - S and toAdd = S - D as
pure set differences; on D = 1,2,3 and S = 2,3,4 it yields toDelete = 1
and toAdd = 4. -/
theorem reconcile_set_difference :
    (∀ (D S : Finset ℕ) (a : ℕ),
      (a ∈ (reconcileStep D S).missing_in_tmdb ↔ a ∈ D ∧ a ∉ S) ∧
      (a ∈ (reconcileStep D S).missing_in_db ↔ a ∈ S ∧ a ∉ D)) ∧
    (reconcileStep ({1, 2, 3} : Finset ℕ) {2, 3, 4}).missing_in_tmdb = {1} ∧
    (reconcileStep ({1, 2, 3} : Finset ℕ) {2, 3, 4}).missing_in_db = {4} := by
  refine ⟨fun D S a => ⟨?_, ?_⟩, by decide, by decide⟩
  · simp [reconcileStep, Finset.mem_sdiff]
  · simp [reconcileStep, Finset.mem_sdiff]

/-- Witness for C1 at D = 1,2,3, S = 2,3,4, a = 1. -/
theorem reconcile_set_difference_witness :
    1 ∈ (reconcileStep ({1, 2, 3} : Finset ℕ) {2, 3, 4}).missing_in_tmdb ↔
      1 ∈ ({1, 2, 3} : Finset ℕ) ∧ 1 ∉ ({2, 3, 4} : Finset ℕ) :=
  (reconcile_set_difference.1 {1, 2, 3} {2, 3, 4} 1).1

/-- C2: the reconcile pair is disjoint and applying it to the destination
yields the source set. -/
theorem reconcile_partition (D S : Finset ℕ) (hS : S.Nonempty) :
    (reconcileStep D S).missing_in_tmdb ∩ (reconcileStep D S).missing_in_db = ∅ ∧
    (D \ (reconcileStep D S).missing_in_tmdb) ∪ (reconcileStep D S).missing_in_db = S := by
  constructor
  · ext a
    simp only [reconcileStep, Finset.mem_inter, Finset.mem_sdiff,
      Finset.not_mem_empty, iff_false]
    tauto
  · ext a
    simp only [reconcileStep, Finset.mem_union, Finset.mem_sdiff]
    tauto

/-- Witness for C2 at D = 1,2,3, S = 2,3,4. -/
theorem reconcile_partition_witness :
    (reconcileStep ({1, 2, 3} : Finset ℕ) {2, 3, 4}).missing_in_tmdb ∩
        (reconcileStep ({1, 2, 3} : Finset ℕ) {2, 3, 4}).missing_in_db = ∅ ∧
    (({1, 2, 3} : Finset ℕ) \ (reconcileStep ({1, 2, 3} : Finset ℕ) {2, 3, 4}).missing_in_tmdb) ∪
        (reconcileStep ({1, 2, 3} : Finset ℕ) {2, 3, 4}).missing_in_db = {2, 3, 4} :=
  reconcile_partition {1, 2, 3} {2, 3, 4} ⟨2, by decide⟩

/-! ## Export fetch and the empty-source guard (C3, C8).

`get_tmdb_export_ids` in sync_tmdb.py (lines 89-112) downloads the
compressed daily export, decompresses it, removes the compressed file,
parses the decompressed file line by line, removes it, and maps empty
data to None.  The variant in tmdb_update.py (lines 151-165) stops after
removing the compressed file and returns the decompressed file's path.

The environment records what the outside world does on this run: the
HTTP status of the download, whether the gzip stream is valid, and the
parse outcome of each line of the decompressed file (`none` marks a line
on which `json.loads` raises). -/

/-- External behaviour driving one `get_tmdb_export_ids` run. -/
structure ExportFetchEnv where
  httpStatus : Nat
  gzipValid : Bool
  lines : List (Option Nat)
deriving DecidableEq

/-- Name of the downloaded compressed export file. -/
def gzFileName : String := "export_ids.json.gz"

/-- Name of the decompressed export file (the compressed name minus its
.gz suffix). -/
def plainFileName : String := "export_ids.json"

/-- `get_tmdb_export_ids` of sync_tmdb.py (lines 89-112), together with
the set of temporary files still on disk when control leaves the
function.  `download_file` writes the file only after checking the
status, `decompress_gzip` opens its output file before copying (so a bad
gzip stream leaves both files), the compressed file is removed before
parsing, and the decompressed file is removed before the emptiness
check. -/
def get_tmdb_export_ids_run (env : ExportFetchEnv) :
    PyResult (Option (List Nat)) × Finset String :=
  if env.httpStatus ≠ 200 then (.ok none, ∅)
  else if env.gzipValid = false then (.exn "BadGzipFile", {gzFileName, plainFileName})
  else if env.lines.any (fun l => l.isNone) then (.exn "JSONDecodeError", {plainFileName})
  else
    let data := env.lines.filterMap id
    if data = [] then (.ok none, ∅) else (.ok (some data), ∅)

/-- `get_tmdb_export_ids` of tmdb_update.py (lines 151-165): it removes
only the compressed file and returns the decompressed file's path for
the caller to read (and later delete). -/
def get_tmdb_export_ids_update_run (env : ExportFetchEnv) :
    PyResult (Option String) × Finset String :=
  if env.httpStatus ≠ 200 then (.ok none, ∅)
  else if env.gzipValid = false then (.exn "BadGzipFile", {gzFileName, plainFileName})
  else (.ok (some plainFileName), {plainFileName})

/-- C8 counterexample: on a successful download (status 200, valid gzip)
the tmdb_update.py variant returns the decompressed file's path with
that file still on disk, so the decompressed temporary file is not
deleted before control returns to the caller. -/
theorem export_tempfile_cex :
    (get_tmdb_export_ids_update_run ⟨200, true, [some 1]⟩).1 = .ok (some plainFileName) ∧
    (get_tmdb_export_ids_update_run ⟨200, true, [some 1]⟩).2 ≠ ∅ := by
  decide

/-- C8 amended: a non-success download status makes both variants return
None with no file ever created; the sync_tmdb.py variant deletes both
temporary files on every normally-returning path, but a line that fails
to parse raises with the decompressed file left on disk; the
tmdb_update.py variant removes only the compressed file and returns the
decompressed file's path to its caller. -/
theorem export_cleanup (env : ExportFetchEnv) (hok : env.httpStatus = 200)
    (hgz : env.gzipValid = true) :
    (∀ e : ExportFetchEnv, e.httpStatus ≠ 200 →
      get_tmdb_export_ids_run e = (.ok none, ∅) ∧
      get_tmdb_export_ids_update_run e = (.ok none, ∅)) ∧
    (env.lines.any (fun l => l.isNone) = false →
      (get_tmdb_export_ids_run env).2 = ∅) ∧
    (env.lines.any (fun l => l.isNone) = true →
      get_tmdb_export_ids_run env = (.exn "JSONDecodeError", {plainFileName})) ∧
    get_tmdb_export_ids_update_run env = (.ok (some plainFileName), {plainFileName}) := by
  refine ⟨fun e he => ?_, fun hp => ?_, fun hp => ?_, ?_⟩
  · constructor
    · simp [get_tmdb_export_ids_run, he]
    · simp [get_tmdb_export_ids_update_run, he]
  · by_cases hd : env.lines.filterMap id = [] <;>
      simp [get_tmdb_export_ids_run, hok, hgz, hp, hd]
  · simp [get_tmdb_export_ids_run, hok, hgz, hp]
  · simp [get_tmdb_export_ids_update_run, hok, hgz]

/-- Witness for the amended C8 at a successful download of one record. -/
theorem export_cleanup_witness :
    (get_tmdb_export_ids_run ⟨200, true, [some 7]⟩).2 = ∅ :=
  (export_cleanup ⟨200, true, [some 7]⟩ rfl rfl).2.1 (by decide)

/-! ## Empty-source guard at the reconcile step (C3). -/

/-- Return value of `get_tmdb_export_ids` (sync_tmdb.py lines 109-112) as
seen by its callers: a failed download propagates as None, and parsed
data that is empty is also mapped to None. -/
def get_tmdb_export_ids_result (download : Option (List Nat)) : Option (List Nat) :=
  match download with
  | none => none
  | some data => if data = [] then none else some data

/-- Head of every entity sync of sync_tmdb.py (for example lines 182-201
of `sync_tmdb_language`): raise if the destination rows are missing,
raise if the source list is falsy (None or empty), and only then issue
the delete of `db_set - tmdb_set`.  The returned set is the set of ids
the sync deletes (the delete statement is issued only when it is
non-empty). -/
def sync_entity_reconcile (db_set : Finset Nat) (tmdb_list : Option (List Nat)) :
    PyResult (Finset Nat) :=
  if db_set = ∅ then .exn "Failed to download table"
  else
    match tmdb_list with
    | none => .exn "Failed to get TMDB ids"
    | some l =>
      if l = [] then .exn "Failed to get TMDB ids"
      else .ok (db_set \ l.toFinset)

/-- Head of `tmdb_update_person_with_daily_export` (tmdb_update.py lines
994-1033): the guard checks only that `get_tmdb_export_ids` returned a
file path (None means the download failed); the parsed content of the
file is never checked for emptiness before the delete of
`supabase_ids_set - tmdb_ids_set` is issued. -/
def tmdb_update_person_daily (supabase_ids : Finset Nat)
    (export_file : Option (List Nat)) : PyResult (Finset Nat) :=
  match export_file with
  | none => .exn "Unable to retrieve TMDB persons"
  | some tmdb_lines =>
    if supabase_ids = ∅ then .exn "Unable to retrieve Supabase persons"
    else .ok (supabase_ids \ tmdb_lines.toFinset)

/-- C3 counterexample: in tmdb_update.py, an export download that
succeeds but whose decompressed file is empty does not raise; the
reconcile step deletes every destination row (here the whole destination
1,2,3). -/
theorem empty_export_wipes_destination_cex :
    tmdb_update_person_daily {1, 2, 3} (some []) = .ok {1, 2, 3} := by
  decide

/-- C3 amended: in sync_tmdb.py every entity sync raises before any
delete when the source fetch failed or produced an empty id list (the
export reader already maps empty data to None), and a delete only ever
removes `db_set - tmdb_set` of a non-empty source; but the export-based
updates of tmdb_update.py guard only the download, so an empty export
file deletes all destination rows. -/
theorem empty_source_guard (db_set : Finset Nat) (l : List Nat)
    (hdb : db_set ≠ ∅) (hl : l ≠ []) :
    (∀ D : Finset Nat, (sync_entity_reconcile D none).isExn = true ∧
      (sync_entity_reconcile D (some [])).isExn = true ∧
      (sync_entity_reconcile D (get_tmdb_export_ids_result (some []))).isExn = true) ∧
    sync_entity_reconcile db_set (some l) = .ok (db_set \ l.toFinset) ∧
    (∀ sup : Finset Nat, sup ≠ ∅ → tmdb_update_person_daily sup (some []) = .ok sup) := by
  refine ⟨fun D => ?_, ?_, fun sup hsup => ?_⟩
  · refine ⟨?_, ?_, ?_⟩ <;>
      · simp only [sync_entity_reconcile, get_tmdb_export_ids_result]
        split <;> simp [PyResult.isExn]
  · simp [sync_entity_reconcile, hdb, hl]
  · simp [tmdb_update_person_daily, hsup]

/-- Witness for the amended C3 at db = 1,2 and source list 2,3. -/
theorem empty_source_guard_witness :
    sync_entity_reconcile {1, 2} (some [2, 3]) = .ok (({1, 2} : Finset ℕ) \ ([2, 3] : List ℕ).toFinset) :=
  (empty_source_guard {1, 2} [2, 3] (by decide) (by decide)).2.1

/-! ## Bulk upsert driver: chunk loop (C4).

In `sync_tmdb_collection` (sync_tmdb.py lines 549-624) and
`tmdb_update_collection` (tmdb_update.py lines 643-724) the chunk loop
flushes each chunk inside its own connection, with a try/except around
the transaction that rolls back and logs on failure without re-raising,
so the loop always proceeds to the next chunk.  `fails k` says whether a
statement of chunk k's flush raises on this run. -/

/-- The chunk loop, started at chunk index k: returns the list of chunks
whose transactions committed (in order) and the list of chunk indices
whose flush was attempted. -/
def chunkLoop (fails : Nat → Bool) : List (List Nat) → Nat → List (List Nat) × List Nat
  | [], _ => ([], [])
  | c :: rest, k =>
    let r := chunkLoop fails rest (k + 1)
    if fails k then (r.1, k :: r.2) else (c :: r.1, k :: r.2)

/-- Every chunk's flush is attempted, whatever the outcomes. -/
theorem chunkLoop_attempted (fails : Nat → Bool) (chunks : List (List Nat)) (k : Nat) :
    (chunkLoop fails chunks k).2 = List.range' k chunks.length := by
  induction chunks generalizing k with
  | nil => rfl
  | cons c rest ih =>
    simp only [chunkLoop, List.length_cons, List.range'_succ]
    split <;> simp [ih]

/-- The committed chunks are exactly the chunks whose flush did not fail. -/
theorem chunkLoop_committed (fails : Nat → Bool) (chunks : List (List Nat)) (k : Nat) :
    (chunkLoop fails chunks k).1 =
      (((List.range' k chunks.length).zip chunks).filter
        (fun p => fails p.1 = false)).map Prod.snd := by
  induction chunks generalizing k with
  | nil => rfl
  | cons c rest ih =>
    simp only [chunkLoop, List.length_cons, List.range'_succ, List.zip_cons_cons,
      List.filter_cons]
    by_cases h : fails k <;> simp [h, ih]

/-- C4: if chunk k's flush fails, chunk k+1 is still attempted, the
committed chunks are exactly those whose flush succeeded (so chunks
committed before k stay committed), and a failing chunk index
contributes nothing to the committed list. -/
theorem chunk_flush_isolation (chunks : List (List Nat)) (fails : Nat → Bool) (k : Nat)
    (hk : k + 1 < chunks.length) (hfail : fails k = true) :
    (k + 1) ∈ (chunkLoop fails chunks 0).2 ∧
    (chunkLoop fails chunks 0).1 =
      (((List.range' 0 chunks.length).zip chunks).filter
        (fun p => fails p.1 = false)).map Prod.snd ∧
    (∀ c : List Nat, (k, c) ∉ ((List.range' 0 chunks.length).zip chunks).filter
        (fun p => fails p.1 = false)) := by
  refine ⟨?_, chunkLoop_committed fails chunks 0, ?_⟩
  · rw [chunkLoop_attempted]
    simp only [List.mem_range']
    exact ⟨k + 1, by omega, by omega⟩
  · intro c hc
    have := List.of_mem_filter hc
    simp [hfail] at this

/-- Witness for C4: chunks [1],[2],[3] with chunk 1 failing; chunk 2 is
attempted and chunks 0 and 2 commit. -/
theorem chunk_flush_isolation_witness :
    2 ∈ (chunkLoop (fun j => j == 1) [[1], [2], [3]] 0).2 ∧
    (chunkLoop (fun j => j == 1) [[1], [2], [3]] 0).1 =
      (((List.range' 0 3).zip [[1], [2], [3]]).filter
        (fun p => (p.1 == 1) = false)).map Prod.snd ∧
    (∀ c : List Nat, (1, c) ∉ ((List.range' 0 3).zip [[1], [2], [3]]).filter
        (fun p => (p.1 == 1) = false)) :=
  chunk_flush_isolation [[1], [2], [3]] (fun j => j == 1) 1 (by decide) (by decide)

/-! ## Scoped upsert transaction (C5).

`sync_tmdb_language` lines 204-252, the v2 country flow lines 39-77 and
`update_supabase_tmdb_person` (tmdb_update.py lines 908-990) all wrap
the batch upsert in: autocommit := false; execute the statements;
commit; on exception rollback (v1 and tmdb_update swallow it, v2
re-raises); finally autocommit := true. -/

/-- A database connection: autocommit flag, committed rows, and the
pending rows of the open transaction. -/
structure Conn where
  autocommit : Bool
  committed : List Nat
  pending : List Nat
deriving DecidableEq

/-- Execute one statement inside the open transaction. -/
def execStmt (c : Conn) (r : Nat) : Conn :=
  { c with pending := c.pending ++ [r] }

/-- Commit the open transaction. -/
def commitTxn (c : Conn) : Conn :=
  { c with committed := c.committed ++ c.pending, pending := [] }

/-- Roll the open transaction back. -/
def rollbackTxn (c : Conn) : Conn :=
  { c with pending := [] }

/-- The scoped upsert transaction bracket shared by
`sync_tmdb_language`, the v2 flows and `update_supabase_tmdb_person`.
`failAt = some k` means statement k of the batch raises; `swallow`
distinguishes the v1 bracket (log and continue) from the v2 bracket
(re-raise after the rollback).  The `finally` clause restores autocommit
on both paths. -/
def scopedUpsert (swallow : Bool) (c : Conn) (batch : List Nat) (failAt : Option Nat) :
    PyResult Unit × Conn :=
  let c1 : Conn := { c with autocommit := false }
  match failAt with
  | none =>
    let c2 := batch.foldl execStmt c1
    let c3 := commitTxn c2
    (.ok (), { c3 with autocommit := true })
  | some k =>
    let c2 := (batch.take k).foldl execStmt c1
    let c3 := rollbackTxn c2
    ((if swallow then .ok () else .exn "statement failed"),
      { c3 with autocommit := true })

/-- Folding statements only grows the pending rows. -/
theorem foldl_execStmt (batch : List Nat) (c : Conn) :
    batch.foldl execStmt c =
      { autocommit := c.autocommit, committed := c.committed,
        pending := c.pending ++ batch } := by
  induction batch generalizing c with
  | nil => simp
  | cons r rest ih => simp [execStmt, ih]

/-- C5: on every exit path of the upsert bracket autocommit ends true; a
run with no failing statement commits exactly the batch and returns
normally; a run with a failing statement leaves the committed rows
unchanged, and returns normally or re-raises according to the variant. -/
theorem scoped_transaction_bracket (swallow : Bool) (c : Conn) (batch : List Nat)
    (failAt : Option Nat) (hpend : c.pending = []) :
    (scopedUpsert swallow c batch failAt).2.autocommit = true ∧
    (scopedUpsert swallow c batch failAt).2.pending = [] ∧
    (failAt = none →
      scopedUpsert swallow c batch failAt =
        (.ok (), { autocommit := true, committed := c.committed ++ batch, pending := [] })) ∧
    (∀ k, failAt = some k →
      (scopedUpsert swallow c batch failAt).2.committed = c.committed ∧
      (scopedUpsert swallow c batch failAt).1.isExn = !swallow) := by
  cases failAt with
  | none =>
    simp [scopedUpsert, foldl_execStmt, commitTxn, hpend]
  | some k =>
    refine ⟨?_, ?_, by simp, fun j hj => ?_⟩
    · simp [scopedUpsert]
    · simp [scopedUpsert, rollbackTxn]
    · constructor
      · simp [scopedUpsert, foldl_execStmt, rollbackTxn]
      · cases swallow <;> simp [scopedUpsert, PyResult.isExn]

/-- Witness for C5: a fresh connection, batch [5, 7], statement 1
failing; the bracket ends with autocommit true and nothing committed. -/
theorem scoped_transaction_bracket_witness :
    (scopedUpsert true ⟨true, [], []⟩ [5, 7] (some 1)).2.autocommit = true ∧
    (scopedUpsert true ⟨true, [], []⟩ [5, 7] (some 1)).2.pending = [] ∧
    (some 1 = (none : Option Nat) →
      scopedUpsert true ⟨true, [], []⟩ [5, 7] (some 1) =
        (.ok (), { autocommit := true, committed := [] ++ [5, 7], pending := [] })) ∧
    (∀ k, (some 1 : Option Nat) = some k →
      (scopedUpsert true ⟨true, [], []⟩ [5, 7] (some 1)).2.committed = [] ∧
      (scopedUpsert true ⟨true, [], []⟩ [5, 7] (some 1)).1.isExn = !true) :=
  scoped_transaction_bracket true ⟨true, [], []⟩ [5, 7] (some 1) rfl

/-! ## Per-id detail fetch (C6).

`get_tmdb_data` (sync_tmdb.py lines 75-87) checks only the explicit
failure flag of the JSON body; it never looks at the HTTP status code.
`get_data` (tmdb_v2/utils/tmdb.py lines 11-28) first checks the status
code, then the flag.  `get_tmdb_person` (sync_tmdb.py lines 752-761)
merges the two locale responses, returning None if either locale's
fetch returned None. -/

/-- A response from the external API: HTTP status, whether the JSON body
carries the explicit success key, that key's value, and an abstract
payload. -/
structure HttpResp where
  status_code : Nat
  hasSuccessField : Bool
  successValue : Bool
  body : Nat
deriving DecidableEq

/-- The body carries the explicit failure flag (key success with value
False). -/
def flagFailure (r : HttpResp) : Bool :=
  r.hasSuccessField && !r.successValue

/-- `get_tmdb_data` of sync_tmdb.py (lines 75-87): returns None when the
body carries the failure flag; the HTTP status is never inspected. -/
def get_tmdb_data_fetch (r : HttpResp) : Option Nat :=
  if flagFailure r then none else some r.body

/-- `get_data` of tmdb_v2/utils/tmdb.py (lines 11-28): returns None on a
non-200 status, then applies the same failure-flag check. -/
def get_data_v2_fetch (r : HttpResp) : Option Nat :=
  if r.status_code ≠ 200 then none
  else if flagFailure r then none
  else some r.body

/-- `get_tmdb_person` of sync_tmdb.py (lines 752-761): one fetch per
locale, None if either is None, otherwise the merged bilingual record. -/
def get_tmdb_person_fetch (en fr : HttpResp) : Option (Nat × Nat) :=
  match get_tmdb_data_fetch en, get_tmdb_data_fetch fr with
  | some a, some b => some (a, b)
  | _, _ => none

/-- The claim's notion of a failed locale response: explicit failure
flag or non-success HTTP status (written from the spec's words, to be
compared with the code's behaviour). -/
def specSignalsFailure (r : HttpResp) : Bool :=
  flagFailure r || (r.status_code != 200)

/-- C6 counterexample: a 404 response whose JSON body has no explicit
success key signals failure in the claim's sense, yet `get_tmdb_person`
still returns a merged record, because `get_tmdb_data` of sync_tmdb.py
never checks the HTTP status. -/
theorem fetch_detail_status_code_cex :
    specSignalsFailure ⟨404, false, false, 0⟩ = true ∧
    get_tmdb_person_fetch ⟨404, false, false, 0⟩ ⟨200, false, false, 0⟩ ≠ none := by
  decide

/-- C6 amended: the v1 per-id fetch returns None exactly when at least
one locale's body carries the explicit failure flag (the HTTP status is
not consulted), and returns the merged bilingual record otherwise; the
v2 fetch returns None exactly when the status is non-success or the
body carries the failure flag. -/
theorem fetch_detail_null_iff :
    (∀ en fr : HttpResp, get_tmdb_person_fetch en fr = none ↔
      flagFailure en = true ∨ flagFailure fr = true) ∧
    (∀ en fr : HttpResp, flagFailure en = false → flagFailure fr = false →
      get_tmdb_person_fetch en fr = some (en.body, fr.body)) ∧
    (∀ r : HttpResp, get_data_v2_fetch r = none ↔
      (r.status_code ≠ 200 ∨ flagFailure r = true)) := by
  refine ⟨fun en fr => ?_, fun en fr hen hfr => ?_, fun r => ?_⟩
  · cases h1 : flagFailure en <;> cases h2 : flagFailure fr <;>
      simp [get_tmdb_person_fetch, get_tmdb_data_fetch, h1, h2]
  · simp [get_tmdb_person_fetch, get_tmdb_data_fetch, hen, hfr]
  · by_cases hs : r.status_code = 200 <;> cases hf : flagFailure r <;>
      simp [get_data_v2_fetch, hs, hf]

/-- Witness for the amended C6 at two clean 200 responses. -/
theorem fetch_detail_null_iff_witness :
    get_tmdb_person_fetch ⟨200, false, false, 3⟩ ⟨200, false, false, 4⟩ =
      some ((⟨200, false, false, 3⟩ : HttpResp).body, (⟨200, false, false, 4⟩ : HttpResp).body) :=
  fetch_detail_null_iff.2.1 ⟨200, false, false, 3⟩ ⟨200, false, false, 4⟩ rfl rfl

/-! ## Sync log watermark (C7).

`get_last_sync` (sync_tmdb.py lines 147-158) runs
SELECT date FROM tmdb_update_logs WHERE type = t AND success = True
ORDER BY date DESC LIMIT 1 and returns the fetched row or None; the
ORDER BY ... LIMIT 1 is embedded as an explicit descending insertion
sort followed by head?.  `sync_tmdb_person_changes_export` (lines
907-909) raises when the watermark is None, before issuing any changes
query. -/

/-- One row of the append-only tmdb_update_logs table. -/
structure SyncLogRow where
  date : Nat
  success : Bool
  logType : String
deriving DecidableEq

/-- Insert a date into a list kept in descending order. -/
def insertDesc (d : Nat) : List Nat → List Nat
  | [] => [d]
  | x :: xs => if x ≤ d then d :: x :: xs else x :: insertDesc d xs

/-- Sort a list of dates in descending order. -/
def sortDesc (l : List Nat) : List Nat :=
  l.foldr insertDesc []

/-- The dates of the successful rows of the given type, in table order
(the WHERE clause of `get_last_sync`). -/
def successDates (logs : List SyncLogRow) (t : String) : List Nat :=
  (logs.filter (fun r => r.logType == t && r.success)).map (fun r => r.date)

/-- `get_last_sync` (sync_tmdb.py lines 147-158). -/
def get_last_sync (logs : List SyncLogRow) (t : String) : Option Nat :=
  (sortDesc (successDates logs t)).head?

/-- The head of the incremental person sync
(`sync_tmdb_person_changes_export`, lines 907-909): raise when there is
no watermark, otherwise proceed with it as the changes-query bound. -/
def sync_person_changes_start (logs : List SyncLogRow) : PyResult Nat :=
  match get_last_sync logs "person" with
  | none => .exn "Failed to get last sync date"
  | some d => .ok d

/-- Membership through a descending insertion. -/
theorem mem_insertDesc {a d : Nat} {l : List Nat} :
    a ∈ insertDesc d l ↔ a = d ∨ a ∈ l := by
  induction l with
  | nil => simp [insertDesc]
  | cons x xs ih =>
    by_cases h : x ≤ d
    · simp [insertDesc, h]
    · simp only [insertDesc, if_neg h, List.mem_cons, ih]
      tauto

/-- Sorting preserves membership. -/
theorem mem_sortDesc {a : Nat} {l : List Nat} : a ∈ sortDesc l ↔ a ∈ l := by
  induction l with
  | nil => simp [sortDesc]
  | cons x xs ih =>
    simp only [sortDesc, List.foldr_cons, mem_insertDesc, List.mem_cons]
    rw [show xs.foldr insertDesc [] = sortDesc xs from rfl, ih]

/-- An insertion never yields the empty list. -/
theorem insertDesc_ne_nil (d : Nat) (l : List Nat) : insertDesc d l ≠ [] := by
  cases l with
  | nil => simp [insertDesc]
  | cons x xs =>
    by_cases h : x ≤ d <;> simp [insertDesc, h]

/-- The sorted list is empty exactly when the input is. -/
theorem sortDesc_eq_nil {l : List Nat} : sortDesc l = [] ↔ l = [] := by
  cases l with
  | nil => simp [sortDesc]
  | cons x xs =>
    simp only [sortDesc, List.foldr_cons]
    exact ⟨fun h => absurd h (insertDesc_ne_nil x _), fun h => by simp at h⟩

/-- The head of the descending sort bounds every element of the input. -/
theorem sortDesc_head_ge {l : List Nat} {h : Nat}
    (hh : (sortDesc l).head? = some h) : ∀ a ∈ l, a ≤ h := by
  induction l generalizing h with
  | nil => simp [sortDesc] at hh
  | cons x xs ih =>
    rw [show sortDesc (x :: xs) = insertDesc x (sortDesc xs) from rfl] at hh
    cases hs : sortDesc xs with
    | nil =>
      rw [hs] at hh
      simp only [insertDesc, List.head?_cons, Option.some.injEq] at hh
      subst hh
      intro a ha
      rcases List.mem_cons.mp ha with rfl | ha
      · exact le_refl a
      · exact absurd (mem_sortDesc.mpr ha) (by simp [hs])
    | cons y ys =>
      rw [hs] at hh
      have hy : ∀ a ∈ xs, a ≤ y := ih (by rw [hs]; rfl)
      by_cases hxy : y ≤ x
      · simp only [insertDesc, if_pos hxy, List.head?_cons, Option.some.injEq] at hh
        subst hh
        intro a ha
        rcases List.mem_cons.mp ha with rfl | ha
        · exact le_refl a
        · exact le_trans (hy a ha) hxy
      · simp only [insertDesc, if_neg hxy, List.head?_cons, Option.some.injEq] at hh
        subst hh
        intro a ha
        rcases List.mem_cons.mp ha with rfl | ha
        · omega
        · exact hy a ha

/-- C7: `get_last_sync` returns a maximum of the successful dates of the
given type, None exactly when there is none, and the incremental person
phase fails fast on a None watermark and proceeds with the returned
bound otherwise. -/
theorem last_sync_watermark (logs : List SyncLogRow) (t : String) (d : Nat)
    (hd : get_last_sync logs t = some d) :
    (d ∈ successDates logs t ∧ ∀ e ∈ successDates logs t, e ≤ d) ∧
    (∀ lg : List SyncLogRow, ∀ s : String,
      (get_last_sync lg s = none ↔ successDates lg s = [])) ∧
    (∀ lg : List SyncLogRow,
      (get_last_sync lg "person" = none → (sync_person_changes_start lg).isExn = true) ∧
      (∀ b, get_last_sync lg "person" = some b → sync_person_changes_start lg = .ok b)) := by
  refine ⟨⟨?_, sortDesc_head_ge hd⟩, fun lg s => ?_, fun lg => ⟨fun hn => ?_, fun b hb => ?_⟩⟩
  · have hd2 : (sortDesc (successDates logs t)).head? = some d := hd
    have hmem : d ∈ sortDesc (successDates logs t) := by
      cases hs : sortDesc (successDates logs t) with
      | nil => rw [hs] at hd2; simp at hd2
      | cons y ys =>
        rw [hs] at hd2
        simp only [List.head?_cons, Option.some.injEq] at hd2
        subst hd2
        simp
    exact mem_sortDesc.mp hmem
  · unfold get_last_sync
    rw [List.head?_eq_none_iff, sortDesc_eq_nil]
  · simp [sync_person_changes_start, hn, PyResult.isExn]
  · simp [sync_person_changes_start, hb]

/-- Witness for C7 on a three-row log: the failed row of date 9 is
ignored and the successful person dates 3 and 5 yield watermark 5. -/
theorem last_sync_watermark_witness :
    (5 ∈ successDates [⟨3, true, "person"⟩, ⟨9, false, "person"⟩, ⟨5, true, "person"⟩] "person" ∧
      ∀ e ∈ successDates [⟨3, true, "person"⟩, ⟨9, false, "person"⟩, ⟨5, true, "person"⟩] "person",
        e ≤ 5) ∧
    (∀ lg : List SyncLogRow, ∀ s : String,
      (get_last_sync lg s = none ↔ successDates lg s = [])) ∧
    (∀ lg : List SyncLogRow,
      (get_last_sync lg "person" = none → (sync_person_changes_start lg).isExn = true) ∧
      (∀ b, get_last_sync lg "person" = some b → sync_person_changes_start lg = .ok b)) :=
  last_sync_watermark [⟨3, true, "person"⟩, ⟨9, false, "person"⟩, ⟨5, true, "person"⟩]
    "person" 5 (by decide)

/-! ## Credential rotation (C9).

`get_tmdb_data` (sync_tmdb.py lines 75-87) reads the key at the shared
index and then advances the index by one modulo the number of keys, on
every call.  `get_tmdb_person_details` (tmdb_update.py lines 888-906)
instead builds both locale URLs with the same key, issues two HTTP
requests, and advances the index once, and only when neither body
carries the failure flag. -/

/-- Next value of the shared rotation index (sync_tmdb.py line 80). -/
def nextKeyIndex (numKeys i : Nat) : Nat :=
  (i + 1) % numKeys

/-- Key indices used by a sequence of `get_tmdb_data` calls, starting
from shared index i: each call reads the current index and advances it. -/
def usedKeySeq (numKeys i : Nat) : Nat → List Nat
  | 0 => []
  | k + 1 => i :: usedKeySeq numKeys (nextKeyIndex numKeys i) k

/-- Observable credential effect of one `get_tmdb_person_details` call
(tmdb_update.py lines 888-906). -/
structure PersonDetailsCall where
  httpCalls : Nat
  keysUsed : List Nat
  nextIdx : Nat
  resultOk : Bool
deriving DecidableEq

/-- `get_tmdb_person_details`: two requests with the same key; the index
advances once on success and not at all when a locale's body carries the
failure flag. -/
def get_tmdb_person_details_step (numKeys i : Nat) (en fr : HttpResp) :
    PersonDetailsCall :=
  if flagFailure en || flagFailure fr then
    { httpCalls := 2, keysUsed := [i, i], nextIdx := i, resultOk := false }
  else
    { httpCalls := 2, keysUsed := [i, i], nextIdx := (i + 1) % numKeys, resultOk := true }

/-- C9 counterexample: with three keys, one successful
`get_tmdb_person_details` call issues two external API calls but moves
the shared index from 0 to 1, not to (0 + 2) mod 3, so the index is not
advanced once per external API call. -/
theorem credential_rotation_cex :
    (get_tmdb_person_details_step 3 0 ⟨200, false, false, 0⟩ ⟨200, false, false, 0⟩).httpCalls = 2 ∧
    (get_tmdb_person_details_step 3 0 ⟨200, false, false, 0⟩ ⟨200, false, false, 0⟩).nextIdx ≠
      (0 + 2) % 3 := by
  decide

/-- C9 amended: `get_tmdb_data` of sync_tmdb.py advances the shared
index by one position modulo the key count on every call, so call j of a
sequence starting at index i uses key (i + j) mod n and n calls use the
n credentials round-robin; `get_tmdb_person_details` of tmdb_update.py
uses one key for its two requests and advances the index once per
successful call, never on failure. -/
theorem credential_rotation (n i k : Nat) (hn : 0 < n) (hi : i < n) :
    usedKeySeq n i k = (List.range k).map (fun j => (i + j) % n) ∧
    usedKeySeq n 0 n = List.range n ∧
    (∀ en fr : HttpResp,
      (get_tmdb_person_details_step n i en fr).keysUsed = [i, i] ∧
      (get_tmdb_person_details_step n i en fr).httpCalls = 2 ∧
      (get_tmdb_person_details_step n i en fr).nextIdx =
        (if (get_tmdb_person_details_step n i en fr).resultOk then (i + 1) % n else i)) := by
  have key : ∀ (k : Nat) (i : Nat), i < n →
      usedKeySeq n i k = (List.range k).map (fun j => (i + j) % n) := by
    intro k
    induction k with
    | zero => intro i hi; simp [usedKeySeq]
    | succ m ih =>
      intro i hi
      have hnext : nextKeyIndex n i < n := Nat.mod_lt _ hn
      rw [show usedKeySeq n i (m + 1) = i :: usedKeySeq n (nextKeyIndex n i) m from rfl,
        ih (nextKeyIndex n i) hnext, List.range_succ_eq_map]
      simp only [List.map_cons, List.map_map]
      congr 1
      · rw [Nat.add_zero, Nat.mod_eq_of_lt hi]
      · apply List.map_congr_left
        intro j _
        simp only [Function.comp_apply, nextKeyIndex, Nat.mod_add_mod]
        exact congrArg (fun m => m % n) (by omega)
  refine ⟨key k i hi, ?_, fun en fr => ?_⟩
  · rw [key n 0 hn]
    have hid : ∀ j ∈ List.range n, (0 + j) % n = j := by
      intro j hj
      rw [Nat.zero_add]
      exact Nat.mod_eq_of_lt (List.mem_range.mp hj)
    calc List.map (fun j => (0 + j) % n) (List.range n)
        = List.map id (List.range n) := List.map_congr_left hid
      _ = List.range n := List.map_id _
  · unfold get_tmdb_person_details_step
    split <;> simp

/-- Witness for the amended C9 with 3 keys, start index 1, 4 calls. -/
theorem credential_rotation_witness :
    usedKeySeq 3 1 4 = (List.range 4).map (fun j => (1 + j) % 3) ∧
    usedKeySeq 3 0 3 = List.range 3 ∧
    (∀ en fr : HttpResp,
      (get_tmdb_person_details_step 3 1 en fr).keysUsed = [1, 1] ∧
      (get_tmdb_person_details_step 3 1 en fr).httpCalls = 2 ∧
      (get_tmdb_person_details_step 3 1 en fr).nextIdx =
        (if (get_tmdb_person_details_step 3 1 en fr).resultOk then (1 + 1) % 3 else 1)) :=
  credential_rotation 3 1 4 (by decide) (by decide)

/-! ## v1 flows versus v2 flows (C10).

`sync_tmdb_language` (sync_tmdb.py lines 178-259) and the v2 language
flow (tmdb_v2/flows/language/flow.py), `sync_tmdb_country`
(sync_tmdb.py lines 262-341) and the v2 country flow
(tmdb_v2/flows/country/flow.py), each compute the same two set
differences; the record below captures every delete/insert decision the
flow makes after the reconcile step. -/

/-- One language entry of the configuration/languages response. -/
structure TmdbLang where
  iso_639_1 : String
  name : String
  english_name : String
deriving DecidableEq

/-- One country entry of the configuration/countries response. -/
structure TmdbCountry where
  iso_3166_1 : String
  english_name : String
  native_name : String
deriving DecidableEq

/-- Delete/insert decisions of a language flow run. -/
structure LanguageActions where
  missing_in_db : Finset String
  missing_in_tmdb : Finset String
  deleteIssued : Bool
  deletedIds : Finset String
  languageUpsertIssued : Bool
  languageUpsertRows : List (String × String)
  translationUpsertRows : List (String × String × String)
deriving DecidableEq

/-- Delete/insert decisions of a country flow run. -/
structure CountryActions where
  missing_in_db : Finset String
  missing_in_tmdb : Finset String
  deleteIssued : Bool
  deletedIds : Finset String
  countryInsertIssued : Bool
  countryInsertIds : Finset String
  translationUpsertRows : List (String × String × String)
deriving DecidableEq

/-- Source iso codes of a language response. -/
def langIsoSet (tmdb_list : List TmdbLang) : Finset String :=
  (tmdb_list.map (fun l => l.iso_639_1)).toFinset

/-- Source iso codes of a country response. -/
def countryIsoSet (tmdb_list : List TmdbCountry) : Finset String :=
  (tmdb_list.map (fun c => c.iso_3166_1)).toFinset

/-- `sync_tmdb_language` after its guards (sync_tmdb.py lines 190-252):
delete the extra codes when there are any; the upsert block for the
tmdb_language and tmdb_language_translation tables always runs, over
every language of the response. -/
def sync_tmdb_language_actions (db_set : Finset String) (tmdb_list : List TmdbLang) :
    LanguageActions :=
  let tmdb_set := langIsoSet tmdb_list
  let missing_in_db := tmdb_set \ db_set
  let missing_in_tmdb := db_set \ tmdb_set
  { missing_in_db := missing_in_db
    missing_in_tmdb := missing_in_tmdb
    deleteIssued := decide (missing_in_tmdb ≠ ∅)
    deletedIds := if missing_in_tmdb ≠ ∅ then missing_in_tmdb else ∅
    languageUpsertIssued := true
    languageUpsertRows :=
      (tmdb_list.filter (fun l => l.iso_639_1 ∈ tmdb_set)).map (fun l => (l.iso_639_1, l.name))
    translationUpsertRows :=
      (tmdb_list.filter (fun l => l.iso_639_1 ∈ tmdb_set)).map
        (fun l => (l.iso_639_1, "en", l.english_name)) }

/-- The v2 language flow after its guards
(tmdb_v2/flows/language/flow.py lines 25-77): identical set differences
and delete decision, but the tmdb_language upsert runs only when some
language is missing; the translation upsert always runs. -/
def flow_language_v2_actions (db_set : Finset String) (tmdb_list : List TmdbLang) :
    LanguageActions :=
  let tmdb_set := langIsoSet tmdb_list
  let missing_in_db := tmdb_set \ db_set
  let missing_in_tmdb := db_set \ tmdb_set
  { missing_in_db := missing_in_db
    missing_in_tmdb := missing_in_tmdb
    deleteIssued := decide (missing_in_tmdb ≠ ∅)
    deletedIds := if missing_in_tmdb ≠ ∅ then missing_in_tmdb else ∅
    languageUpsertIssued := decide (missing_in_db ≠ ∅)
    languageUpsertRows :=
      if missing_in_db ≠ ∅ then
        (tmdb_list.filter (fun l => l.iso_639_1 ∈ tmdb_set)).map (fun l => (l.iso_639_1, l.name))
      else []
    translationUpsertRows :=
      (tmdb_list.filter (fun l => l.iso_639_1 ∈ tmdb_set)).map
        (fun l => (l.iso_639_1, "en", l.english_name)) }

/-- `sync_tmdb_country` after its guards (sync_tmdb.py lines 274-333):
delete the extra codes when there are any; insert the missing codes only
when there are any; always upsert the en and fr translation rows. -/
def sync_tmdb_country_actions (db_set : Finset String) (tmdb_list : List TmdbCountry) :
    CountryActions :=
  let tmdb_set := countryIsoSet tmdb_list
  let missing_in_db := tmdb_set \ db_set
  let missing_in_tmdb := db_set \ tmdb_set
  { missing_in_db := missing_in_db
    missing_in_tmdb := missing_in_tmdb
    deleteIssued := decide (missing_in_tmdb ≠ ∅)
    deletedIds := if missing_in_tmdb ≠ ∅ then missing_in_tmdb else ∅
    countryInsertIssued := decide (missing_in_db ≠ ∅)
    countryInsertIds := if missing_in_db ≠ ∅ then missing_in_db else ∅
    translationUpsertRows :=
      (tmdb_list.filter (fun c => c.iso_3166_1 ∈ tmdb_set)).map
          (fun c => (c.iso_3166_1, "en", c.english_name)) ++
        (tmdb_list.filter (fun c => c.iso_3166_1 ∈ tmdb_set)).map
          (fun c => (c.iso_3166_1, "fr", c.native_name)) }

/-- The v2 country flow after its guards
(tmdb_v2/flows/country/flow.py lines 25-75): the same differences,
delete decision, guarded country insert and unconditional bilingual
translation upsert as v1. -/
def flow_country_v2_actions (db_set : Finset String) (tmdb_list : List TmdbCountry) :
    CountryActions :=
  let tmdb_set := countryIsoSet tmdb_list
  let missing_in_db := tmdb_set \ db_set
  let missing_in_tmdb := db_set \ tmdb_set
  { missing_in_db := missing_in_db
    missing_in_tmdb := missing_in_tmdb
    deleteIssued := decide (missing_in_tmdb ≠ ∅)
    deletedIds := if missing_in_tmdb ≠ ∅ then missing_in_tmdb else ∅
    countryInsertIssued := decide (missing_in_db ≠ ∅)
    countryInsertIds := if missing_in_db ≠ ∅ then missing_in_db else ∅
    translationUpsertRows :=
      (tmdb_list.filter (fun c => c.iso_3166_1 ∈ tmdb_set)).map
          (fun c => (c.iso_3166_1, "en", c.english_name)) ++
        (tmdb_list.filter (fun c => c.iso_3166_1 ∈ tmdb_set)).map
          (fun c => (c.iso_3166_1, "fr", c.native_name)) }

/-- C10 counterexample: with destination and source both equal to the
single code en, nothing is missing, the v1 language sync still issues
the tmdb_language upsert but the v2 flow skips it, so the two flows are
not behaviourally identical. -/
theorem language_flow_equiv_cex :
    sync_tmdb_language_actions {"en"} [⟨"en", "anglais", "English"⟩] ≠
      flow_language_v2_actions {"en"} [⟨"en", "anglais", "English"⟩] ∧
    (sync_tmdb_language_actions {"en"} [⟨"en", "anglais", "English"⟩]).languageUpsertIssued = true ∧
    (flow_language_v2_actions {"en"} [⟨"en", "anglais", "English"⟩]).languageUpsertIssued = false := by
  refine ⟨?_, by decide, by decide⟩
  intro h
  have := congrArg LanguageActions.languageUpsertIssued h
  revert this
  decide

/-- C10 amended: the v2 flows compute the same reconcile sets and the
same delete decisions as v1 for both entity types; the country flows
make identical insert decisions on every input; the language flows
coincide whenever some language is missing, and differ only in that v2
skips the tmdb_language upsert when nothing is missing. -/
theorem v2_flow_reconcile_equiv (db_set dbc : Finset String)
    (langs : List TmdbLang) (countries : List TmdbCountry)
    (hmiss : (sync_tmdb_language_actions db_set langs).missing_in_db ≠ ∅) :
    (∀ (D : Finset String) (ls : List TmdbLang),
      (sync_tmdb_language_actions D ls).missing_in_db =
          (flow_language_v2_actions D ls).missing_in_db ∧
      (sync_tmdb_language_actions D ls).missing_in_tmdb =
          (flow_language_v2_actions D ls).missing_in_tmdb ∧
      (sync_tmdb_language_actions D ls).deleteIssued =
          (flow_language_v2_actions D ls).deleteIssued ∧
      (sync_tmdb_language_actions D ls).deletedIds =
          (flow_language_v2_actions D ls).deletedIds ∧
      (sync_tmdb_language_actions D ls).translationUpsertRows =
          (flow_language_v2_actions D ls).translationUpsertRows) ∧
    sync_tmdb_country_actions dbc countries = flow_country_v2_actions dbc countries ∧
    sync_tmdb_language_actions db_set langs = flow_language_v2_actions db_set langs := by
  refine ⟨fun D ls => ⟨rfl, rfl, rfl, rfl, rfl⟩, rfl, ?_⟩
  have hmiss2 : (langIsoSet langs \ db_set) ≠ ∅ := hmiss
  simp only [sync_tmdb_language_actions, flow_language_v2_actions, if_pos hmiss2]
  simp [hmiss2]

/-- Witness for the amended C10: destination em, source en, one missing
language, the two language flows take identical actions. -/
theorem v2_flow_reconcile_equiv_witness :
    sync_tmdb_language_actions {"em"} [⟨"en", "anglais", "English"⟩] =
      flow_language_v2_actions {"em"} [⟨"en", "anglais", "English"⟩] :=
  (v2_flow_reconcile_equiv {"em"} {"em"} [⟨"en", "anglais", "English"⟩] []
    (by decide)).2.2

end Recomend
